import Mathlib

/-!
Shallow embedding of `scripts/sony_liv.py` (Iptv-maker repository).

Network effects are modelled as explicit inputs: the listing fetch and each
detail-page fetch are `Except Unit` values (an `error` models a raised
requests exception), and the two liveness probes are oracle functions from a
URL to `Except Unit Nat` (the HTTP status, or an exception).  HTML parsing by
BeautifulSoup is abstracted to the list of anchor elements (href, text) that
`soup.find_all` returns.  Pure computations (regex searches, JSON decoding,
playlist rendering, deduplication, sorting) are translated directly.
-/

/-- Python values produced by `json.loads`: null, booleans, integers, floats
(kept as the raw numeric token; exact IEEE rounding such as underflow to 0.0
is approximated by the token's digits), strings, lists and dicts (dicts as
association lists in insertion order, later duplicate keys overriding). -/
inductive Jv where
  | null : Jv
  | bool (b : Bool) : Jv
  | int (n : Int) : Jv
  | float (raw : String) : Jv
  | str (s : String) : Jv
  | arr (xs : List Jv) : Jv
  | obj (kvs : List (String × Jv)) : Jv

/-- Characters treated as whitespace by Python's `json` scanner. -/
def jsonWs (c : Char) : Bool :=
  c == ' ' || c == '\t' || c == '\n' || c == '\r'

/-- Drop leading JSON whitespace. -/
def skipWs : List Char → List Char
  | [] => []
  | c :: cs => if jsonWs c then skipWs cs else c :: cs

/-- Value of a hexadecimal digit. -/
def hexVal (c : Char) : Option Nat :=
  if '0' ≤ c ∧ c ≤ '9' then some (c.toNat - 48)
  else if 'a' ≤ c ∧ c ≤ 'f' then some (c.toNat - 87)
  else if 'A' ≤ c ∧ c ≤ 'F' then some (c.toNat - 55)
  else none

/-- Single-character JSON string escapes. -/
def escSimple (c : Char) : Option Char :=
  if c = '"' then some '"'
  else if c = '\\' then some '\\'
  else if c = '/' then some '/'
  else if c = 'b' then some '\x08'
  else if c = 'f' then some '\x0c'
  else if c = 'n' then some '\n'
  else if c = 'r' then some '\r'
  else if c = 't' then some '\t'
  else none

/-- Read a low-surrogate escape sequence, returning its code point and the rest. -/
def lowSurr : List Char → Option (Nat × List Char)
  | '\\' :: 'u' :: h1 :: h2 :: h3 :: h4 :: r =>
    match hexVal h1, hexVal h2, hexVal h3, hexVal h4 with
    | some a, some b, some c, some d =>
      let cp := ((a * 16 + b) * 16 + c) * 16 + d
      if 0xDC00 ≤ cp ∧ cp ≤ 0xDFFF then some (cp, r) else none
    | _, _, _, _ => none
  | _ => none

/-- Decode the body of a JSON string (after the opening quote) up to the
closing quote.  Follows Python's strict decoder: raw control characters are
rejected, surrogate pairs are combined; a lone surrogate (which Python keeps
as a lone surrogate code unit) is approximated by `Char.ofNat`. -/
def jStrChars : Nat → List Char → Option (List Char × List Char)
  | 0, _ => none
  | _ + 1, [] => none
  | fuel + 1, c :: rest =>
    if c = '"' then some ([], rest)
    else if c = '\\' then
      match rest with
      | [] => none
      | e :: r2 =>
        match escSimple e with
        | some d => (jStrChars fuel r2).map (fun pr => (d :: pr.1, pr.2))
        | none =>
          if e = 'u' then
            match r2 with
            | h1 :: h2 :: h3 :: h4 :: r3 =>
              match hexVal h1, hexVal h2, hexVal h3, hexVal h4 with
              | some a, some b, some cc, some d =>
                let cp := ((a * 16 + b) * 16 + cc) * 16 + d
                if 0xD800 ≤ cp ∧ cp ≤ 0xDBFF then
                  match lowSurr r3 with
                  | some (cp2, r4) =>
                    (jStrChars fuel r4).map (fun pr =>
                      (Char.ofNat (0x10000 + (cp - 0xD800) * 1024 + (cp2 - 0xDC00)) :: pr.1, pr.2))
                  | none =>
                    (jStrChars fuel r3).map (fun pr => (Char.ofNat cp :: pr.1, pr.2))
                else
                  (jStrChars fuel r3).map (fun pr => (Char.ofNat cp :: pr.1, pr.2))
              | _, _, _, _ => none
            | _ => none
          else none
    else if c.toNat < 0x20 then none
    else (jStrChars fuel rest).map (fun pr => (c :: pr.1, pr.2))

/-- Decimal digits prefix. -/
def digitSpan (l : List Char) : List Char × List Char :=
  l.span (fun c => decide ('0' ≤ c ∧ c ≤ '9'))

/-- Natural number denoted by a digit list. -/
def digitsToNat (ds : List Char) : Nat :=
  ds.foldl (fun n c => n * 10 + (c.toNat - 48)) 0

/-- Parse a JSON number token (Python's NUMBER_RE): optional sign, integer
part, optional fraction and exponent.  Integral tokens become arbitrary
precision integers as in Python; others keep their raw token as a float. -/
def jNum (l : List Char) : Option (Jv × List Char) :=
  let (neg, l1) := match l with
    | '-' :: r => (true, r)
    | _ => (false, l)
  let (ip, l2) := match l1 with
    | '0' :: r => (['0'], r)
    | _ => digitSpan l1
  if ip.isEmpty then none
  else
    let (fracPart, l3) := match l2 with
      | '.' :: r =>
        match digitSpan r with
        | ([], _) => (([] : List Char), l2)
        | (ds, r2) => ('.' :: ds, r2)
      | _ => (([] : List Char), l2)
    let (expPart, l4) := match l3 with
      | e :: r =>
        if e = 'e' ∨ e = 'E' then
          let (sgn, r1) := match r with
            | '+' :: rr => (['+'], rr)
            | '-' :: rr => (['-'], rr)
            | _ => (([] : List Char), r)
          match digitSpan r1 with
          | ([], _) => (([] : List Char), l3)
          | (ds, r2) => (e :: (sgn ++ ds), r2)
        else (([] : List Char), l3)
      | _ => (([] : List Char), l3)
    if fracPart.isEmpty ∧ expPart.isEmpty then
      let v : Int := Int.ofNat (digitsToNat ip)
      some (Jv.int (if neg then -v else v), l4)
    else
      let raw := (if neg then ['-'] else []) ++ ip ++ fracPart ++ expPart
      some (Jv.float (String.mk raw), l4)

mutual

/-- Parse one JSON value (Python `json.loads` grammar, including the
`NaN` / `Infinity` / `-Infinity` constants it accepts by default). -/
def jVal : Nat → List Char → Option (Jv × List Char)
  | 0, _ => none
  | fuel + 1, l =>
    match skipWs l with
    | '\x7b' :: rest =>
      match skipWs rest with
      | '\x7d' :: r => some (Jv.obj [], r)
      | _ => jMembers fuel rest []
    | '[' :: rest =>
      match skipWs rest with
      | ']' :: r => some (Jv.arr [], r)
      | _ => jItems fuel rest []
    | '"' :: rest =>
      (jStrChars (rest.length + 1) rest).map (fun pr => (Jv.str (String.mk pr.1), pr.2))
    | 't' :: 'r' :: 'u' :: 'e' :: r => some (Jv.bool true, r)
    | 'f' :: 'a' :: 'l' :: 's' :: 'e' :: r => some (Jv.bool false, r)
    | 'n' :: 'u' :: 'l' :: 'l' :: r => some (Jv.null, r)
    | 'N' :: 'a' :: 'N' :: r => some (Jv.float (String.mk ['N', 'a', 'N']), r)
    | 'I' :: 'n' :: 'f' :: 'i' :: 'n' :: 'i' :: 't' :: 'y' :: r =>
      some (Jv.float (String.mk ['I', 'n', 'f']), r)
    | '-' :: 'I' :: 'n' :: 'f' :: 'i' :: 'n' :: 'i' :: 't' :: 'y' :: r =>
      some (Jv.float (String.mk ['-', 'I', 'n', 'f']), r)
    | c :: r =>
      if c = '-' ∨ ('0' ≤ c ∧ c ≤ '9') then jNum (c :: r) else none
    | [] => none

/-- Parse the members of a JSON object (after at least one member is known to
follow). -/
def jMembers : Nat → List Char → List (String × Jv) → Option (Jv × List Char)
  | 0, _, _ => none
  | fuel + 1, l, acc =>
    match skipWs l with
    | '"' :: r =>
      match jStrChars (r.length + 1) r with
      | none => none
      | some (kcs, r2) =>
        match skipWs r2 with
        | ':' :: r3 =>
          match jVal fuel r3 with
          | none => none
          | some (v, r4) =>
            let acc2 := acc ++ [(String.mk kcs, v)]
            match skipWs r4 with
            | ',' :: r5 => jMembers fuel r5 acc2
            | '\x7d' :: r5 => some (Jv.obj acc2, r5)
            | _ => none
        | _ => none
    | _ => none

/-- Parse the items of a JSON array (after at least one item is known to
follow). -/
def jItems : Nat → List Char → List Jv → Option (Jv × List Char)
  | 0, _, _ => none
  | fuel + 1, l, acc =>
    match jVal fuel l with
    | none => none
    | some (v, r) =>
      match skipWs r with
      | ',' :: r2 => jItems fuel r2 (acc ++ [v])
      | ']' :: r2 => some (Jv.arr (acc ++ [v]), r2)
      | _ => none

end

/-- Python `json.loads`: parse a complete document, rejecting trailing data.
The fuel is generous; every recursive step consumes input. -/
def jsonParse (s : String) : Option Jv :=
  match jVal (2 * s.length + 8) s.data with
  | some (v, rest) => if skipWs rest = [] then some v else none
  | none => none

/-- Python truthiness of a decoded JSON value (`bool(v)`).  For floats the
raw token's mantissa is inspected: any nonzero digit before the exponent
marker makes it truthy (`NaN` and the infinities are truthy); exact IEEE
underflow to `0.0` is not modelled. -/
def pyTruthy : Jv → Bool
  | Jv.null => false
  | Jv.bool b => b
  | Jv.int n => n != 0
  | Jv.float raw =>
    raw == "NaN" || raw == "Inf" || raw == "-Inf" ||
      (raw.data.takeWhile (fun c => c != 'e' && c != 'E')).any
        (fun c => decide ('1' ≤ c ∧ c ≤ '9'))
  | Jv.str s => s != ""
  | Jv.arr xs => !xs.isEmpty
  | Jv.obj kvs => !kvs.isEmpty

/-- Python `dict.get key` on a dict decoded from JSON: duplicate keys were
overridden left to right, so the stored value is the last occurrence; a
missing key yields `None`. -/
def jget (kvs : List (String × Jv)) (key : String) : Jv :=
  match kvs.reverse.find? (fun kv => kv.1 == key) with
  | some kv => kv.2
  | none => Jv.null

/-- Python `a or b`. -/
def pyOr (a b : Jv) : Jv :=
  if pyTruthy a then a else b

/-- Python `v or ""` (used for the stored logo field). -/
def pyOrEmpty (v : Jv) : Jv :=
  if pyTruthy v then v else Jv.str ""

/-- Characters matched by `\s` in Python regexes, restricted to ASCII
(the rare Unicode space characters are not modelled). -/
def reSpace (c : Char) : Bool :=
  c == ' ' || c == '\t' || c == '\n' || c == '\r' || c == '\x0b' || c == '\x0c'

/-- Match a literal character sequence, returning the remainder. -/
def dropLit : List Char → List Char → Option (List Char)
  | [], l => some l
  | _ :: _, [] => none
  | p :: ps, c :: cs => if c = p then dropLit ps cs else none

/-- Is `pat` a prefix of `l`? -/
def isPref : List Char → List Char → Bool
  | [], _ => true
  | _ :: _, [] => false
  | p :: ps, c :: cs => p == c && isPref ps cs

/-- Python's `in` test on strings: does `pat` occur as a contiguous substring? -/
def containsSub (pat : List Char) : List Char → Bool
  | [] => pat.isEmpty
  | c :: cs => isPref pat (c :: cs) || containsSub pat cs

/-- Python `s.startswith(pre)`. -/
def pyStartswith (s pre : String) : Bool :=
  isPref pre.data s.data

/-- Lazy scan for the regex tail `.*?};`: the shortest run of non-newline
characters followed by the two characters brace-semicolon.  Returns the run. -/
def lazyToBraceSemi : List Char → Option (List Char)
  | '\x7d' :: ';' :: _ => some []
  | [] => none
  | c :: cs =>
    if c = '\n' then none
    else (lazyToBraceSemi cs).map (fun b => c :: b)

/-- Try to match `const\s+channelData\s*=\s*(\x7b.*?\x7d);` anchored at the
start of `l`; on success return capture group 1 (the braced payload).
The whitespace runs take their maximal extent, which is the unique viable
extent since the following literal characters are not whitespace. -/
def chanDataAt (l : List Char) : Option (List Char) :=
  match dropLit ['c', 'o', 'n', 's', 't'] l with
  | none => none
  | some r1 =>
    let (sp, r2) := r1.span reSpace
    if sp.isEmpty then none
    else
      match dropLit ['c', 'h', 'a', 'n', 'n', 'e', 'l', 'D', 'a', 't', 'a'] r2 with
      | none => none
      | some r3 =>
        let (_, r4) := r3.span reSpace
        match r4 with
        | '=' :: r5 =>
          let (_, r6) := r5.span reSpace
          match r6 with
          | '\x7b' :: r7 =>
            (lazyToBraceSemi r7).map (fun inner => '\x7b' :: (inner ++ ['\x7d']))
          | _ => none
        | _ => none

/-- `re.search` for the channelData pattern: try each start position from the
left, returning the first (leftmost) match's capture group. -/
def chanDataSearch : List Char → Option (List Char)
  | [] => none
  | c :: cs =>
    match chanDataAt (c :: cs) with
    | some g => some g
    | none => chanDataSearch cs

/-- Lazy scan for the regex tail `(.*?)"`: the shortest run of non-newline
characters up to the next double quote. -/
def lazyToQuote : List Char → Option (List Char)
  | '"' :: _ => some []
  | [] => none
  | c :: cs =>
    if c = '\n' then none
    else (lazyToQuote cs).map (fun b => c :: b)

/-- After a matched key literal: `\s*:\s*"(.*?)"`, returning the capture. -/
def keyValueTail (l : List Char) : Option (List Char) :=
  let (_, r1) := l.span reSpace
  match r1 with
  | ':' :: r2 =>
    let (_, r3) := r2.span reSpace
    match r3 with
    | '"' :: r4 => lazyToQuote r4
    | _ => none
  | _ => none

/-- Try to match `"m3u8"\s*:\s*"(.*?)"` anchored at the start of `l`. -/
def m3u8KeyAt (l : List Char) : Option (List Char) :=
  match dropLit ['"', 'm', '3', 'u', '8', '"'] l with
  | none => none
  | some r1 => keyValueTail r1

/-- `re.search` for the fallback m3u8 pattern (leftmost match). -/
def m3u8KeySearch : List Char → Option (List Char)
  | [] => none
  | c :: cs =>
    match m3u8KeyAt (c :: cs) with
    | some g => some g
    | none => m3u8KeySearch cs

/-- Try to match `"(logo|image|poster)"\s*:\s*"(.*?)"` at the start of `l`,
returning capture group 2.  The three alternatives differ in their first
letter, so at most one can match at a given position. -/
def logoKeyAt (l : List Char) : Option (List Char) :=
  match dropLit ['"', 'l', 'o', 'g', 'o', '"'] l with
  | some r1 => keyValueTail r1
  | none =>
    match dropLit ['"', 'i', 'm', 'a', 'g', 'e', '"'] l with
    | some r1 => keyValueTail r1
    | none =>
      match dropLit ['"', 'p', 'o', 's', 't', 'e', 'r', '"'] l with
      | some r1 => keyValueTail r1
      | none => none

/-- `re.search` for the fallback logo pattern (leftmost match). -/
def logoKeySearch : List Char → Option (List Char)
  | [] => none
  | c :: cs =>
    match logoKeyAt (c :: cs) with
    | some g => some g
    | none => logoKeySearch cs

/-- Python `captured.replace(backslash-slash, slash)`: left-to-right,
non-overlapping. -/
def unescSlash : List Char → List Char
  | '\\' :: '/' :: rest => '/' :: unescSlash rest
  | c :: rest => c :: unescSlash rest
  | [] => []

/-- The structured extraction step of `process_channel`: search for the
channelData assignment, `json.loads` its payload, and read the `m3u8` and
`logo`/`image`/`poster` fields.  Any failure inside this step (no regex
match, JSON error, payload not a dict) leaves both results as `None`,
mirroring the swallowed exception.  Returns (m3u8, logo). -/
def structStep (body : String) : Jv × Jv :=
  match chanDataSearch body.data with
  | none => (Jv.null, Jv.null)
  | some g =>
    match jsonParse (String.mk g) with
    | some (Jv.obj kvs) =>
      (jget kvs "m3u8",
        pyOr (jget kvs "logo") (pyOr (jget kvs "image") (jget kvs "poster")))
    | _ => (Jv.null, Jv.null)

/-- The stream URL held by the `m3u8` variable after both extraction
strategies: the structured value if truthy, otherwise the fallback regex
capture (with backslash-slash unescaped) if it matches, otherwise the
(falsy) structured value. -/
def extractM3u8 (body : String) : Jv :=
  let m := (structStep body).1
  if pyTruthy m then m
  else
    match m3u8KeySearch body.data with
    | some s => Jv.str (String.mk (unescSlash s))
    | none => m

/-- The logo value after both extraction strategies (independent of the
m3u8 chain, exactly as in the source). -/
def extractLogo (body : String) : Jv :=
  let lg := (structStep body).2
  if pyTruthy lg then lg
  else
    match logoKeySearch body.data with
    | some s => Jv.str (String.mk (unescSlash s))
    | none => lg

/-- An HTTP response delivered without an exception: status code and body. -/
structure Resp where
  status : Nat
  text : String

/-- A validated channel as returned by the worker: the dict
`name / url / logo` (the logo slot holds whatever `logo or ""` produced). -/
structure Channel where
  name : String
  url : String
  logo : Jv

/-- One liveness probe issued against the stream URL. -/
inductive ProbeCall where
  | headCall (u : String) : ProbeCall
  | getCall (u : String) : ProbeCall
deriving DecidableEq

/-- The probe oracles shared by all workers: `session.head` and the
streaming `session.get`, each returning a status or raising. -/
structure NetEnv where
  headReq : String → Except Unit Nat
  getReq : String → Except Unit Nat

/-- The constant used in `m3u8.startswith('http')` and in URL resolution. -/
def httpLit : String := "http"

/-- The second (GET) probe attempt: status below 400 accepts the channel,
anything else (including a raised exception) yields nothing. -/
def probeGet (net : NetEnv) (name u : String) (lg : Jv) (tr : List ProbeCall) :
    Option Channel × List ProbeCall :=
  match net.getReq u with
  | Except.ok st =>
    if st < 400 then (some ⟨name, u, pyOrEmpty lg⟩, tr ++ [ProbeCall.getCall u])
    else (none, tr ++ [ProbeCall.getCall u])
  | Except.error _ => (none, tr ++ [ProbeCall.getCall u])

/-- The worker `process_channel`, given the candidate's name, the result of
fetching its detail page, and the probe oracles.  Besides the optional
channel it returns the trace of probes issued, so that "no probe was
attempted" is expressible.  The outer Python `try` catches every exception
(in particular the `AttributeError` raised by `m3u8.startswith` when the
structured extraction produced a truthy non-string) and returns `None`. -/
def process_channel (name : String) (fetched : Except Unit Resp) (net : NetEnv) :
    Option Channel × List ProbeCall :=
  match fetched with
  | Except.error _ => (none, [])
  | Except.ok r =>
    if r.status ≠ 200 then (none, [])
    else
      let m := extractM3u8 r.text
      let lg := extractLogo r.text
      if pyTruthy m then
        match m with
        | Jv.str s =>
          if pyStartswith s httpLit then
            match net.headReq s with
            | Except.ok st =>
              if st < 400 then (some ⟨name, s, pyOrEmpty lg⟩, [ProbeCall.headCall s])
              else probeGet net name s lg [ProbeCall.headCall s]
            | Except.error _ => probeGet net name s lg [ProbeCall.headCall s]
          else (none, [])
        | _ => (none, [])
      else (none, [])

/-- An anchor element of the listing markup: its href attribute and its
(possibly unstripped) text content. -/
structure Link where
  href : String
  text : String
deriving DecidableEq

/-- A candidate channel page: display name and resolved detail URL. -/
structure Candidate where
  name : String
  page_url : String
deriving DecidableEq

/-- Characters removed by Python `str.strip()` (ASCII approximation, as for
regex whitespace). -/
def pyStrip (s : String) : String :=
  String.mk (((s.data.dropWhile reSpace).reverse.dropWhile reSpace).reverse)

/-- The listing URL joined in front of relative hrefs. -/
def sonyBase : String := "https://allinonereborn.xyz/sony/"

/-- The marker selecting player pages. -/
def ptestMarker : String := "ptest.php"

/-- The default display name for a link with empty text. -/
def defaultName : String := "Sony Liv Channel"

/-- The loop body of `get_channel_links`: keep anchors whose href contains
the player-page marker, derive the display name (stripped text, defaulted
when empty) and resolve the href to an absolute URL. -/
def channelPages (links : List Link) : List Candidate :=
  links.filterMap (fun link =>
    if containsSub ptestMarker.data link.href.data then
      let nm := pyStrip link.text
      some { name := if nm = "" then defaultName else nm
             page_url := if pyStartswith link.href httpLit then link.href
                         else sonyBase ++ link.href }
    else none)

/-- Inserting one candidate into the dict being built by the comprehension
`(dict of page_url to v).values()`: an existing key keeps its position but
takes the new value, a new key is appended. -/
def upsert (acc : List Candidate) (v : Candidate) : List Candidate :=
  if acc.any (fun x => x.page_url == v.page_url) then
    acc.map (fun x => if x.page_url == v.page_url then v else x)
  else acc ++ [v]

/-- Python dict-comprehension deduplication by `page_url`: first-occurrence
order of keys, last-seen value for each key. -/
def dedupeLast (l : List Candidate) : List Candidate :=
  l.foldl upsert []

/-- Does `raise_for_status` raise?  (`requests` raises `HTTPError` exactly
for status codes 400–599.) -/
def raiseForStatus (st : Nat) : Bool :=
  decide (400 ≤ st ∧ st < 600)

/-- `get_channel_links`, given the outcome of the listing fetch
(an exception, or a status code together with the anchors of the body).
Any exception — from the request itself or from `raise_for_status` — is
caught and turns into an empty result. -/
def get_channel_links (inp : Except Unit (Nat × List Link)) : List Candidate :=
  match inp with
  | Except.error _ => []
  | Except.ok (st, links) =>
    if raiseForStatus st then []
    else dedupeLast (channelPages links)

mutual

/-- Python `repr` of a decoded JSON value (string quoting simplified to
surrounding single quotes; float repr approximated by the raw token).  Only
reachable for the exotic case of a non-string logo value interpolated into
the playlist; no claim depends on its fine structure. -/
def pyRepr : Jv → String
  | Jv.null => "None"
  | Jv.bool b => if b then "True" else "False"
  | Jv.int n => toString n
  | Jv.float raw => raw
  | Jv.str s => "\x27" ++ s ++ "\x27"
  | Jv.arr xs => "[" ++ pyReprList xs ++ "]"
  | Jv.obj kvs => "\x7b" ++ pyReprKvs kvs ++ "\x7d"

/-- Comma-separated reprs of list elements. -/
def pyReprList : List Jv → String
  | [] => ""
  | [x] => pyRepr x
  | x :: y :: rest => pyRepr x ++ ", " ++ pyReprList (y :: rest)

/-- Comma-separated reprs of dict entries. -/
def pyReprKvs : List (String × Jv) → String
  | [] => ""
  | [kv] => "\x27" ++ kv.1 ++ "\x27: " ++ pyRepr kv.2
  | kv :: kv2 :: rest =>
    "\x27" ++ kv.1 ++ "\x27: " ++ pyRepr kv.2 ++ ", " ++ pyReprKvs (kv2 :: rest)

end

/-- Python `str()` as used by f-string interpolation of the logo value. -/
def pyStr : Jv → String
  | Jv.str s => s
  | v => pyRepr v

/-- The User-Agent header, also interpolated into the playlist. -/
def uaHeader : String := "Mozilla/5.0 (Windows NT 10.0; Win64; x64) AppleWebKit/537.36 (KHTML, like Gecko) Chrome/91.0.4472.124 Safari/537.36"

/-- The Referer header, interpolated into each playlist entry. -/
def refererHeader : String := "https://allinonereborn.xyz/sony/"

/-- The header text of the playlist before the timestamp interpolation. -/
def hdrPre : String := "#EXTM3U\n#=================================\n# Developed By: OMNIX EMPIER\n# Playlist: Sony Liv (Auto-Generated)\n# Last Updated: "

/-- The header text between the timestamp and the channel count. -/
def hdrMid : String := " (BD Time)\n# Working Channels: "

/-- The header text after the channel count. -/
def hdrEnd : String := "\n#=================================\n"

/-- The `m3u_header` f-string of `generate_m3u`. -/
def mkHeader (t : String) (n : Nat) : String :=
  hdrPre ++ t ++ hdrMid ++ toString n ++ hdrEnd

/-- The two global directive lines written after the header. -/
def globalsStr : String :=
  "#EXTVLCOPT:http-user-agent=" ++ uaHeader ++ "\nhttp://example.com/status\n\n"

/-- The per-channel group of lines written by the loop of `generate_m3u`. -/
def channelEntry (c : Channel) : String :=
  "#EXTINF:-1 group-title=\"Sony Liv\" tvg-logo=\"" ++ pyStr c.logo ++ "\"," ++ c.name ++ "\n" ++
  "#EXTVLCOPT:network-caching=1000\n" ++
  "#EXTVLCOPT:http-user-agent=" ++ uaHeader ++ "\n" ++
  "#EXTVLCOPT:http-referrer=" ++ refererHeader ++ "\n" ++
  c.url ++ "\n\n"

/-- Ordering of channels by display name (Python compares `str` by code
points, as does Lean's `String` order). -/
def chNameLe (a b : Channel) : Prop := a.name ≤ b.name

instance : DecidableRel chNameLe :=
  fun a b => inferInstanceAs (Decidable (a.name ≤ b.name))

/-- `channels.sort(key=lambda x: x['name'])`: Python's sort is stable, and a
stable sort by key is extensionally unique, so insertion sort (which is
stable) computes the same list Timsort does. -/
def sortByName (l : List Channel) : List Channel :=
  List.insertionSort chNameLe l

/-- Everything `generate_m3u` writes before the channel entries. -/
def docPrefix (t : String) (n : Nat) : String :=
  mkHeader t n ++ "\n" ++ globalsStr

/-- The full document written by `generate_m3u` (the open-truncate-write of
the output file is modelled by returning the document; the timestamp
computation is abstracted into the already formatted string `t`, since
`strftime` output contains no newline). -/
def generate_m3u (channels : List Channel) (t : String) : String :=
  docPrefix t channels.length ++ String.join ((sortByName channels).map channelEntry)

/-- The whole external world of one run: listing fetch outcome, detail-page
fetch outcomes (by URL), and the probe oracles. -/
structure World where
  listing : Except Unit (Nat × List Link)
  detail : String → Except Unit Resp
  net : NetEnv

/-- `get_working_channels`: the worker pool runs `process_channel` on every
candidate and collects the successes in completion order.  The completion
order is an arbitrary permutation of the candidate list, passed explicitly. -/
def get_working_channels (w : World) (order : List Candidate) : List Channel :=
  order.filterMap (fun p => (process_channel p.name (w.detail p.page_url) w.net).1)

/-- The message printed when no channel validated. -/
def noChannelsMsg : String := "No working channels found."

/-- The success message of `generate_m3u`. -/
def successMsg : String := "Success! Generated playlist."

/-- The `__main__` dispatch: run the pipeline, and only when the validated
collection is non-empty invoke `generate_m3u`.  Returns the written document
(or `none` when no write happens) and the reported outcome message. -/
def mainRun (w : World) (order : List Candidate) (t : String) :
    Option String × String :=
  let channels := get_working_channels w order
  if channels.isEmpty then (none, noChannelsMsg)
  else (some (generate_m3u channels t), successMsg)

/-- Split a character list into its newline-separated lines (the device used
to state "byte-identical except for the timestamp line"). -/
def splitLines : List Char → List (List Char)
  | [] => [[]]
  | c :: cs =>
    if c = '\n' then [] :: splitLines cs
    else
      match splitLines cs with
      | [] => [[c]]
      | l :: ls => (c :: l) :: ls

/-- Claim C10: a detail-page response with any status other than exactly 200
(201, 204, ... included) makes `process_channel` return `None` with no probe
issued; only status 200 proceeds to extraction. -/
theorem c10_only_status_200_proceeds (name : String) (r : Resp) (net : NetEnv)
    (h : r.status ≠ 200) :
    process_channel name (Except.ok r) net = (none, []) := by
  simp [process_channel, h]

/-- Witness for C10 at status 201. -/
theorem c10_only_status_200_proceeds_witness :
    process_channel ("X") (Except.ok ⟨201, "const channelData"⟩)
      ⟨fun _ => Except.ok 200, fun _ => Except.ok 200⟩ = (none, []) :=
  c10_only_status_200_proceeds _ _ _ (by decide)

/-- Claim C3: when the body yields no m3u8 value from the structured
channelData step and the fallback regex finds no match either,
`process_channel` returns `None` (and, all exceptions being caught, raises
nothing — in the model, it returns normally with no probe issued). -/
theorem c3_no_m3u8_returns_none (name : String) (r : Resp) (net : NetEnv)
    (h1 : (structStep r.text).1 = Jv.null)
    (h2 : m3u8KeySearch r.text.data = none) :
    process_channel name (Except.ok r) net = (none, []) := by
  have hm : extractM3u8 r.text = Jv.null := by
    simp [extractM3u8, h1, h2, pyTruthy]
  by_cases hst : r.status = 200
  · simp [process_channel, hst, hm, pyTruthy]
  · simp [process_channel, hst]

/-- Witness for C3 on a body with no m3u8 occurrence at all. -/
theorem c3_no_m3u8_returns_none_witness :
    process_channel ("X") (Except.ok ⟨200, "<html>no stream here</html>"⟩)
      ⟨fun _ => Except.ok 200, fun _ => Except.ok 200⟩ = (none, []) :=
  c3_no_m3u8_returns_none _ _ _ rfl rfl

/-- Claim C4: when the stream URL left after both extraction strategies is
not a string beginning with `http` (it is `None`, empty, a non-`http`
string, or not a string at all — in which case `startswith` raises and the
outer handler returns `None`), `process_channel` returns `None` and issues
no liveness probe. -/
theorem c4_no_http_url_no_probe (name : String) (r : Resp) (net : NetEnv)
    (h : ∀ s, extractM3u8 r.text = Jv.str s → pyStartswith s httpLit = false) :
    process_channel name (Except.ok r) net = (none, []) := by
  by_cases hst : r.status = 200
  · cases hm : extractM3u8 r.text with
    | null => simp [process_channel, hst, hm, pyTruthy]
    | bool b => cases b <;> simp [process_channel, hst, hm, pyTruthy]
    | int n => by_cases hn : n = 0 <;> simp [process_channel, hst, hm, pyTruthy, hn]
    | float raw => simp [process_channel, hst, hm, pyTruthy]
    | str s =>
      by_cases hs : s = ""
      · simp [process_channel, hst, hm, pyTruthy, hs]
      · simp [process_channel, hst, hm, pyTruthy, hs, h s hm]
    | arr xs => simp [process_channel, hst, hm, pyTruthy]
    | obj kvs => simp [process_channel, hst, hm, pyTruthy]
  · simp [process_channel, hst]

/-- Witness for C4 on a body whose stream URL is relative (no http scheme). -/
theorem c4_no_http_url_no_probe_witness :
    process_channel ("X")
      (Except.ok ⟨200, "const channelData = \x7b\"m3u8\": \"live/stream.m3u8\"\x7d;"⟩)
      ⟨fun _ => Except.ok 200, fun _ => Except.ok 200⟩ = (none, []) :=
  c4_no_http_url_no_probe _ _ _ (fun s h => by
    rw [show extractM3u8 ("const channelData = \x7b\"m3u8\": \"live/stream.m3u8\"\x7d;") =
        Jv.str ("live/stream.m3u8") from rfl] at h
    cases h
    rfl)

/-- Claim C1: with an extracted stream URL beginning with `http`, a HEAD
probe that completes with status 404 (>= 400, no exception) and a streaming
GET probe that returns 200, `process_channel` returns the validated channel
carrying the candidate's name, the stream URL and the extracted logo — i.e.
the GET fallback runs after a non-exceptional HEAD failure. -/
theorem c1_get_fallback_after_head_404 (name : String) (r : Resp) (net : NetEnv)
    (u : String) (hst : r.status = 200)
    (hm : extractM3u8 r.text = Jv.str u)
    (hu : pyStartswith u httpLit = true)
    (hh : net.headReq u = Except.ok 404)
    (hg : net.getReq u = Except.ok 200) :
    process_channel name (Except.ok r) net =
      (some ⟨name, u, pyOrEmpty (extractLogo r.text)⟩,
        [ProbeCall.headCall u, ProbeCall.getCall u]) := by
  have hne : u ≠ "" := by
    intro h
    subst h
    exact absurd hu (by decide)
  simp [process_channel, hst, hm, pyTruthy, hne, hu, hh, hg, probeGet]

/-- Witness for C1: a concrete channelData body, HEAD answering 404 and GET
answering 200. -/
theorem c1_get_fallback_after_head_404_witness :
    process_channel ("Sony")
      (Except.ok ⟨200, "const channelData = \x7b\"m3u8\": \"http://x/live.m3u8\", \"logo\": \"http://x/l.png\"\x7d;"⟩)
      ⟨fun _ => Except.ok 404, fun _ => Except.ok 200⟩ =
      (some ⟨"Sony", "http://x/live.m3u8", Jv.str ("http://x/l.png")⟩,
        [ProbeCall.headCall ("http://x/live.m3u8"), ProbeCall.getCall ("http://x/live.m3u8")]) :=
  c1_get_fallback_after_head_404 _ _ _ _ rfl rfl rfl rfl rfl

/-- Claim C5: with an extracted `http` stream URL, if the HEAD probe fails
(raises, or returns a status >= 400) and the GET probe also fails, then
`process_channel` returns `None`. -/
theorem c5_both_probes_fail_none (name : String) (r : Resp) (net : NetEnv)
    (u : String)
    (hm : extractM3u8 r.text = Jv.str u)
    (hu : pyStartswith u httpLit = true)
    (hh : net.headReq u = Except.error () ∨ ∃ st, net.headReq u = Except.ok st ∧ 400 ≤ st)
    (hg : net.getReq u = Except.error () ∨ ∃ st, net.getReq u = Except.ok st ∧ 400 ≤ st) :
    (process_channel name (Except.ok r) net).1 = none := by
  by_cases hst : r.status = 200
  · have hne : u ≠ "" := by
      intro h
      subst h
      exact absurd hu (by decide)
    have hgetP : ∀ tr, (probeGet net name u (extractLogo r.text) tr).1 = none := by
      intro tr
      rcases hg with hg | ⟨st, hg, hge⟩
      · simp [probeGet, hg]
      · simp [probeGet, hg, Nat.not_lt.mpr hge]
    rcases hh with hh | ⟨st, hh, hge⟩
    · simp [process_channel, hst, hm, pyTruthy, hne, hu, hh, hgetP]
    · simp [process_channel, hst, hm, pyTruthy, hne, hu, hh, Nat.not_lt.mpr hge, hgetP]
  · simp [process_channel, hst]

/-- Witness for C5: HEAD raises, GET answers 503. -/
theorem c5_both_probes_fail_none_witness :
    (process_channel ("Sony")
      (Except.ok ⟨200, "const channelData = \x7b\"m3u8\": \"http://x/live.m3u8\"\x7d;"⟩)
      ⟨fun _ => Except.error (), fun _ => Except.ok 503⟩).1 = none :=
  c5_both_probes_fail_none _ _ _ _ rfl rfl (Or.inl rfl)
    (Or.inr ⟨503, rfl, by decide⟩)

/-- Keys are preserved by the value replacement `upsert` performs. -/
theorem upsert_replace_key (v x : Candidate) :
    (if x.page_url == v.page_url then v else x).page_url = x.page_url := by
  by_cases h : x.page_url == v.page_url
  · simp only [h, if_pos]
    exact (eq_of_beq h).symm
  · simp [h]

/-- `upsert` preserves pairwise distinctness of the `page_url` keys. -/
theorem upsert_pairwise (acc : List Candidate) (v : Candidate)
    (h : acc.Pairwise (fun a b => a.page_url ≠ b.page_url)) :
    (upsert acc v).Pairwise (fun a b => a.page_url ≠ b.page_url) := by
  unfold upsert
  by_cases hany : acc.any (fun x => x.page_url == v.page_url)
  · rw [if_pos hany, List.pairwise_map]
    refine h.imp (fun hab => ?_)
    rw [upsert_replace_key, upsert_replace_key]
    exact hab
  · rw [if_neg hany, List.pairwise_append]
    refine ⟨h, List.pairwise_singleton _ _, ?_⟩
    intro a ha b hb
    rcases List.mem_singleton.mp hb with rfl
    intro hk
    exact hany (List.any_eq_true.mpr ⟨a, ha, by simp [hk]⟩)

/-- The dict built by the comprehension has pairwise distinct keys. -/
theorem foldl_upsert_pairwise (l : List Candidate) :
    ∀ acc, acc.Pairwise (fun a b => a.page_url ≠ b.page_url) →
      (l.foldl upsert acc).Pairwise (fun a b => a.page_url ≠ b.page_url) := by
  induction l with
  | nil => exact fun acc h => h
  | cons x xs ih => exact fun acc h => ih _ (upsert_pairwise acc x h)

/-- Lookup in `upsert acc v` under the key of `v` finds `v`. -/
theorem find?_upsert_self (acc : List Candidate) (v : Candidate) :
    (upsert acc v).find? (fun x => x.page_url == v.page_url) = some v := by
  unfold upsert
  by_cases hany : acc.any (fun x => x.page_url == v.page_url)
  · rw [if_pos hany, List.find?_map]
    have hpf : ((fun x : Candidate => x.page_url == v.page_url) ∘
        (fun x => if x.page_url == v.page_url then v else x)) =
        (fun x : Candidate => x.page_url == v.page_url) := by
      funext y
      by_cases hy : y.page_url = v.page_url
      · simp [hy]
      · simp [hy]
    rw [hpf]
    rcases List.any_eq_true.mp hany with ⟨y, hy, hpy⟩
    have hs : (acc.find? (fun x => x.page_url == v.page_url)).isSome = true :=
      List.find?_isSome.mpr ⟨y, hy, hpy⟩
    rcases Option.isSome_iff_exists.mp hs with ⟨y₀, hy₀⟩
    have hp0 : (y₀.page_url == v.page_url) = true :=
      List.find?_some (p := fun x : Candidate => x.page_url == v.page_url) hy₀
    have hyv : y₀.page_url = v.page_url := eq_of_beq hp0
    rw [hy₀]
    simp [hyv]
  · rw [if_neg hany, List.find?_append]
    have hnone : acc.find? (fun x => x.page_url == v.page_url) = none := by
      rw [List.find?_eq_none]
      intro x hx hpx
      exact hany (List.any_eq_true.mpr ⟨x, hx, hpx⟩)
    simp [hnone, List.find?_cons]

/-- Lookup in `upsert acc v` under a key other than `v`'s is unchanged. -/
theorem find?_upsert_other (acc : List Candidate) (v : Candidate) (u : String)
    (hne : v.page_url ≠ u) :
    (upsert acc v).find? (fun x => x.page_url == u) =
      acc.find? (fun x => x.page_url == u) := by
  unfold upsert
  by_cases hany : acc.any (fun x => x.page_url == v.page_url)
  · rw [if_pos hany, List.find?_map]
    have hpf : ((fun x : Candidate => x.page_url == u) ∘
        (fun x => if x.page_url == v.page_url then v else x)) =
        (fun x : Candidate => x.page_url == u) := by
      funext y
      by_cases hy : y.page_url = v.page_url
      · simp [hy, Ne.symm hne]
      · simp [hy]
    rw [hpf]
    cases hfind : acc.find? (fun x => x.page_url == u) with
    | none => rfl
    | some y₀ =>
      have hpy : (y₀.page_url == u) = true :=
        List.find?_some (p := fun x : Candidate => x.page_url == u) hfind
      have hyu : y₀.page_url = u := eq_of_beq hpy
      have hcond : ¬ ((y₀.page_url == v.page_url) = true) := by
        simp [hyu]
        exact fun h => hne h.symm
      simp only [Option.map_some']
      rw [if_neg hcond]
  · rw [if_neg hany, List.find?_append]
    have hone : List.find? (fun x => x.page_url == u) [v] = none := by
      have hvp : (v.page_url == u) = false := by
        simp [hne]
      simp [List.find?_cons, hvp]
    rw [hone]
    cases acc.find? (fun x => x.page_url == u) <;> rfl

/-- Lookup in the dict built by folding `upsert` finds the last-seen entry
with the given key (lookup in the reversed source list), falling back to the
initial accumulator. -/
theorem find?_foldl_upsert (l : List Candidate) :
    ∀ (acc : List Candidate) (u : String),
      (l.foldl upsert acc).find? (fun x => x.page_url == u) =
        match l.reverse.find? (fun x => x.page_url == u) with
        | some c => some c
        | none => acc.find? (fun x => x.page_url == u) := by
  induction l with
  | nil => intro acc u; simp
  | cons x xs ih =>
    intro acc u
    rw [List.foldl_cons, ih (upsert acc x) u, List.reverse_cons, List.find?_append]
    cases hxs : xs.reverse.find? (fun x => x.page_url == u) with
    | some c => rfl
    | none =>
      by_cases hxu : x.page_url = u
      · subst hxu
        rw [find?_upsert_self acc x]
        simp [List.find?_cons]
      · rw [find?_upsert_other acc x u hxu]
        have hone : List.find? (fun y => y.page_url == u) [x] = none := by
          have hxp : (x.page_url == u) = false := by simp [hxu]
          simp [List.find?_cons, hxp]
        rw [hone]
        rfl

/-- In a list with pairwise-distinct keys, lookup by a member's own key
finds exactly that member. -/
theorem find?_self_of_pairwise (l : List Candidate) (c : Candidate)
    (hnd : l.Pairwise (fun a b => a.page_url ≠ b.page_url)) (hc : c ∈ l) :
    l.find? (fun x => x.page_url == c.page_url) = some c := by
  induction l with
  | nil => cases hc
  | cons x xs ih =>
    rcases List.mem_cons.mp hc with rfl | hc
    · simp [List.find?_cons]
    · have hx : x.page_url ≠ c.page_url :=
        (List.pairwise_cons.mp hnd).1 c hc
      have hxp : (x.page_url == c.page_url) = false := by simp [hx]
      rw [List.find?_cons, hxp]
      exact ih (List.pairwise_cons.mp hnd).2 hc

/-- Claim C2: `get_channel_links` never returns two candidates with the same
resolved detail URL, and when several links resolve to the same URL the
entry kept is the last-seen one (lookup by its URL in the reversed pre-dedup
list finds exactly the returned entry). -/
theorem c2_dedupe_last_wins (inp : Except Unit (Nat × List Link)) :
    (get_channel_links inp).Pairwise (fun a b => a.page_url ≠ b.page_url) ∧
      (∀ st links c, inp = Except.ok (st, links) → c ∈ get_channel_links inp →
        (channelPages links).reverse.find? (fun x => x.page_url == c.page_url) =
          some c) := by
  constructor
  · match inp with
    | Except.error _ => exact List.Pairwise.nil
    | Except.ok (st, links) =>
      simp only [get_channel_links]
      by_cases hraise : raiseForStatus st
      · simp [hraise]
      · simp only [hraise, Bool.false_eq_true, if_false]
        exact foldl_upsert_pairwise _ _ List.Pairwise.nil
  · intro st links c hinp hc
    subst hinp
    simp only [get_channel_links] at hc ⊢
    by_cases hraise : raiseForStatus st
    · rw [if_pos hraise] at hc
      cases hc
    · rw [if_neg hraise] at hc
      have hnd : (dedupeLast (channelPages links)).Pairwise
          (fun a b => a.page_url ≠ b.page_url) :=
        foldl_upsert_pairwise _ _ List.Pairwise.nil
      have hself := find?_self_of_pairwise _ c hnd hc
      have hfold := find?_foldl_upsert (channelPages links) [] c.page_url
      rw [dedupeLast] at hself
      rw [hself] at hfold
      cases hxs : (channelPages links).reverse.find?
          (fun x => x.page_url == c.page_url) with
      | some c' =>
        rw [hxs] at hfold
        exact hfold.symm
      | none =>
        rw [hxs] at hfold
        simp at hfold

/-- Witness for C2: two links resolving to the same URL; the output has one
entry, carrying the second link's display name. -/
theorem c2_dedupe_last_wins_witness :
    (get_channel_links (Except.ok (200,
        [⟨"ptest.php?c=1", "First"⟩, ⟨"ptest.php?c=1", "Second"⟩]))).Pairwise
      (fun a b => a.page_url ≠ b.page_url) ∧
      (channelPages [⟨"ptest.php?c=1", "First"⟩, ⟨"ptest.php?c=1", "Second"⟩]).reverse.find?
          (fun x => x.page_url == "https://allinonereborn.xyz/sony/ptest.php?c=1") =
        some ⟨"Second", "https://allinonereborn.xyz/sony/ptest.php?c=1"⟩ := by
  refine ⟨(c2_dedupe_last_wins _).1, ?_⟩
  exact (c2_dedupe_last_wins _).2 200
    [⟨"ptest.php?c=1", "First"⟩, ⟨"ptest.php?c=1", "Second"⟩]
    ⟨"Second", "https://allinonereborn.xyz/sony/ptest.php?c=1"⟩ rfl (by decide)

/-- Counterexample to claim C8 as stated: a 301 response is not 2xx, yet
`raise_for_status` raises only for 400-599, so a 301 body containing a
matching link produces a non-empty candidate list. -/
theorem c8_non2xx_counterexample :
    ¬ (200 ≤ 301 ∧ 301 < 300) ∧
      get_channel_links (Except.ok (301, [⟨"ptest.php", "X"⟩])) =
        [⟨"X", "https://allinonereborn.xyz/sony/ptest.php"⟩] :=
  ⟨by decide, by decide⟩

/-- Claim C8 (amended): `get_channel_links` returns an empty collection and
raises no error whenever the listing markup has zero links matching the
player-page marker, whenever the fetch raises, and whenever the status is in
400-599 (the range `raise_for_status` treats as an error); statuses outside
that range — even non-2xx ones — proceed to parsing. -/
theorem c8_empty_cases :
    (∀ st links, (∀ l ∈ links, containsSub ptestMarker.data l.href.data = false) →
        get_channel_links (Except.ok (st, links)) = []) ∧
      (∀ e : Unit, get_channel_links (Except.error e) = []) ∧
      (∀ st links, 400 ≤ st → st < 600 →
        get_channel_links (Except.ok (st, links)) = []) := by
  refine ⟨?_, fun _ => rfl, ?_⟩
  · intro st links h
    have hpages : channelPages links = [] := by
      rw [channelPages, List.filterMap_eq_nil_iff]
      intro l hl
      simp [h l hl]
    simp only [get_channel_links]
    by_cases hraise : raiseForStatus st
    · simp [hraise]
    · simp [hraise, hpages, dedupeLast]
  · intro st links h4 h6
    have hraise : raiseForStatus st = true := by
      simp [raiseForStatus, h4, h6]
    simp [get_channel_links, hraise]

/-- Witness for the amended C8 at its three concrete cases. -/
theorem c8_empty_cases_witness :
    get_channel_links (Except.ok (200, [⟨"index.html", "Home"⟩])) = [] ∧
      get_channel_links (Except.error ()) = [] ∧
      get_channel_links (Except.ok (404, [⟨"ptest.php", "X"⟩])) = [] :=
  ⟨c8_empty_cases.1 200 [⟨"index.html", "Home"⟩] (by decide),
    c8_empty_cases.2.1 (),
    c8_empty_cases.2.2 404 [⟨"ptest.php", "X"⟩] (by decide) (by decide)⟩

/-- Claim C9: when no candidate is discovered or every candidate fails
validation, the main dispatch never invokes `generate_m3u` (no document is
produced) and reports the no-channels message, completing normally. -/
theorem c9_empty_run_no_write (w : World) (order : List Candidate) (t : String)
    (hperm : order.Perm (get_channel_links w.listing))
    (h : get_channel_links w.listing = [] ∨
      ∀ p ∈ get_channel_links w.listing,
        (process_channel p.name (w.detail p.page_url) w.net).1 = none) :
    mainRun w order t = (none, noChannelsMsg) := by
  have hempty : get_working_channels w order = [] := by
    rcases h with h | h
    · rw [h] at hperm
      rw [get_working_channels, hperm.eq_nil]
      rfl
    · rw [get_working_channels, List.filterMap_eq_nil_iff]
      intro p hp
      exact h p (hperm.subset hp)
  simp [mainRun, hempty]

/-- Witness for C9: listing fetch raises, so no candidates exist. -/
theorem c9_empty_run_no_write_witness :
    mainRun ⟨Except.error (), fun _ => Except.error (),
        ⟨fun _ => Except.error (), fun _ => Except.error ()⟩⟩ [] "t" =
      (none, noChannelsMsg) :=
  c9_empty_run_no_write _ _ _ List.Perm.nil (Or.inl rfl)

instance : IsTotal Channel chNameLe :=
  ⟨fun a b => le_total a.name b.name⟩

instance : IsTrans Channel chNameLe :=
  ⟨fun _ _ _ h1 h2 => le_trans h1 h2⟩

/-- Filtering by an exact name commutes with ordered insertion: every
element the insertion skips over has a strictly smaller name bit, hence a
different name. -/
theorem filter_orderedInsert (n : String) (a : Channel) (l : List Channel) :
    (List.orderedInsert chNameLe a l).filter (fun c => c.name == n) =
      if a.name == n then a :: l.filter (fun c => c.name == n)
      else l.filter (fun c => c.name == n) := by
  induction l with
  | nil =>
    by_cases hpa : a.name = n <;> simp [List.filter_cons, hpa]
  | cons b l ih =>
    rw [List.orderedInsert]
    by_cases hab : chNameLe a b
    · rw [if_pos hab]
      by_cases hpa : a.name = n <;> simp [List.filter_cons, hpa]
    · rw [if_neg hab]
      by_cases hpa : a.name = n
      · have hlt : b.name < a.name := lt_of_not_le hab
        have hb : b.name ≠ n := by
          rw [hpa] at hlt
          exact ne_of_lt hlt
        simp [List.filter_cons, hb, hpa, ih]
      · simp [List.filter_cons, hpa, ih]

/-- Stability of the modelled sort: the sublist of channels bearing any
fixed name is preserved. -/
theorem sortByName_filter (l : List Channel) (n : String) :
    (sortByName l).filter (fun c => c.name == n) =
      l.filter (fun c => c.name == n) := by
  induction l with
  | nil => rfl
  | cons a l ih =>
    show ((List.insertionSort chNameLe l).orderedInsert chNameLe a).filter
        (fun c => c.name == n) = _
    rw [filter_orderedInsert n a _]
    by_cases hpa : a.name = n
    · simp [List.filter_cons, hpa]
      exact ih
    · simp [List.filter_cons, hpa]
      exact ih

/-- Claim C6: the document produced by `generate_m3u` renders its channel
entries from a list that is sorted by name in ascending case-sensitive
(code point) order, is a permutation of the input collection, and preserves
the input order of channels with equal names (stability) — independently of
the order in which the worker pool delivered the input. -/
theorem c6_entries_sorted_by_name (channels : List Channel) (t : String)
    (_hne : channels ≠ []) :
    ∃ L : List Channel, generate_m3u channels t =
        docPrefix t channels.length ++ String.join (L.map channelEntry) ∧
      L.Pairwise chNameLe ∧ L.Perm channels ∧
      ∀ n, L.filter (fun c => c.name == n) =
        channels.filter (fun c => c.name == n) :=
  ⟨sortByName channels, rfl,
    List.sorted_insertionSort chNameLe channels,
    List.perm_insertionSort chNameLe channels,
    fun n => sortByName_filter channels n⟩

/-- Witness for C6 on a concrete two-channel collection given in descending
order. -/
theorem c6_entries_sorted_by_name_witness :
    ∃ L : List Channel, generate_m3u [⟨"Zee", "u1", Jv.str ""⟩, ⟨"Alpha", "u2", Jv.str ""⟩] ("t") =
        docPrefix ("t") 2 ++ String.join (L.map channelEntry) ∧
      L.Pairwise chNameLe ∧
      L.Perm [⟨"Zee", "u1", Jv.str ""⟩, ⟨"Alpha", "u2", Jv.str ""⟩] ∧
      ∀ n, L.filter (fun c => c.name == n) =
        ([⟨"Zee", "u1", Jv.str ""⟩, ⟨"Alpha", "u2", Jv.str ""⟩] :
          List Channel).filter (fun c => c.name == n) :=
  c6_entries_sorted_by_name _ _ (List.cons_ne_nil _ _)

/-- Prepend a fragment to the first line of a line list. -/
def glueLines (x : List Char) : List (List Char) → List (List Char)
  | [] => [x]
  | l :: ls => (x ++ l) :: ls

/-- `splitLines` always yields at least one line. -/
theorem splitLines_ne_nil (l : List Char) : splitLines l ≠ [] := by
  cases l with
  | nil => simp [splitLines]
  | cons c cs =>
    rw [splitLines]
    by_cases hc : c = '\n'
    · simp [hc]
    · rw [if_neg hc]
      cases splitLines cs <;> simp

/-- Splitting a concatenation: all lines of the first part except its last,
then the last line of the first part glued onto the lines of the second. -/
theorem splitLines_append (a b : List Char) :
    splitLines (a ++ b) =
      (splitLines a).dropLast ++
        glueLines ((splitLines a).getLastD []) (splitLines b) := by
  induction a with
  | nil =>
    cases hb : splitLines b with
    | nil => exact absurd hb (splitLines_ne_nil b)
    | cons m ms => simp [splitLines, glueLines, hb]
  | cons c a' ih =>
    by_cases hc : c = '\n'
    · subst hc
      rw [List.cons_append, splitLines, if_pos rfl, ih, splitLines, if_pos rfl]
      cases hsa : splitLines a' with
      | nil => exact absurd hsa (splitLines_ne_nil a')
      | cons l₀ ls₀ => simp [List.getLastD_cons]
    · rw [List.cons_append, splitLines, if_neg hc, ih, splitLines, if_neg hc]
      cases hsa : splitLines a' with
      | nil => exact absurd hsa (splitLines_ne_nil a')
      | cons l₀ ls₀ =>
        cases ls₀ with
        | nil =>
          cases hb : splitLines b with
          | nil => exact absurd hb (splitLines_ne_nil b)
          | cons m ms => simp [glueLines, List.getLastD_cons, List.getLastD]
        | cons l₁ ls₁ =>
          simp [glueLines, List.getLastD_cons]

/-- A newline-free fragment is a single line. -/
theorem splitLines_no_newline (l : List Char) (h : '\n' ∉ l) :
    splitLines l = [l] := by
  induction l with
  | nil => rfl
  | cons c cs ih =>
    have hc : c ≠ '\n' := fun hh => h (hh ▸ List.mem_cons_self c cs)
    rw [splitLines, if_neg hc, ih (fun hm => h (List.mem_cons_of_mem c hm))]

/-- Shape of the line decomposition of the document: four fixed header
lines, the timestamp line (the only line depending on `t`), then lines
determined by the remainder `z` alone. -/
theorem splitLines_hdr (t : String) (h : '\n' ∉ t.data) (z : List Char) :
    splitLines (hdrPre.data ++ (t.data ++ (hdrMid.data ++ z))) =
      ("#EXTM3U").data :: ("#=================================").data ::
      ("# Developed By: OMNIX EMPIER").data ::
      ("# Playlist: Sony Liv (Auto-Generated)").data ::
      (("# Last Updated: ").data ++ (t.data ++ (" (BD Time)").data)) ::
      glueLines (("# Working Channels: ").data) (splitLines z) := by
  have hSA : splitLines (hdrPre.data) =
      [("#EXTM3U").data, ("#=================================").data,
        ("# Developed By: OMNIX EMPIER").data,
        ("# Playlist: Sony Liv (Auto-Generated)").data,
        ("# Last Updated: ").data] := rfl
  have hSM : splitLines (hdrMid.data) =
      [(" (BD Time)").data, ("# Working Channels: ").data] := rfl
  rw [splitLines_append, splitLines_append, splitLines_append,
    splitLines_no_newline t.data h, hSA, hSM]
  cases hz : splitLines z with
  | nil => exact absurd hz (splitLines_ne_nil z)
  | cons m ms => simp [glueLines, List.getLastD_cons]

/-- Claim C7: two runs of `generate_m3u` on the same validated-channel
collection differ at most in the timestamp line: line index 4 is the
timestamp line, and after removing it the two documents' line sequences are
identical — the output is a deterministic function of the collection and
the formatted generation time. -/
theorem c7_timestamp_only_difference (channels : List Channel) (t1 t2 : String)
    (h1 : '\n' ∉ t1.data) (h2 : '\n' ∉ t2.data) :
    ((splitLines (generate_m3u channels t1).data).eraseIdx 4 =
        (splitLines (generate_m3u channels t2).data).eraseIdx 4) ∧
      (splitLines (generate_m3u channels t1).data)[4]? =
        some (("# Last Updated: ").data ++ (t1.data ++ (" (BD Time)").data)) := by
  have hdata : ∀ t : String, (generate_m3u channels t).data =
      hdrPre.data ++ (t.data ++ (hdrMid.data ++
        ((toString channels.length).data ++ (hdrEnd.data ++ (("\n").data ++
          (globalsStr.data ++
            (String.join ((sortByName channels).map channelEntry)).data)))))) := by
    intro t
    simp [generate_m3u, docPrefix, mkHeader, String.data_append]
  rw [hdata t1, hdata t2, splitLines_hdr t1 h1, splitLines_hdr t2 h2]
  constructor
  · simp [List.eraseIdx]
  · simp

/-- Witness for C7 at a concrete channel list and two concrete timestamps. -/
theorem c7_timestamp_only_difference_witness :
    ((splitLines (generate_m3u [⟨"A", "http://u", Jv.str ""⟩]
            ("2025-01-01 10:00 AM")).data).eraseIdx 4 =
        (splitLines (generate_m3u [⟨"A", "http://u", Jv.str ""⟩]
            ("2025-01-02 11:30 PM")).data).eraseIdx 4) ∧
      (splitLines (generate_m3u [⟨"A", "http://u", Jv.str ""⟩]
            ("2025-01-01 10:00 AM")).data)[4]? =
        some (("# Last Updated: ").data ++
          (("2025-01-01 10:00 AM").data ++ (" (BD Time)").data)) :=
  c7_timestamp_only_difference _ _ _ (by decide) (by decide)
